import Mathlib

/-!
Shallow embedding of the arcan frame-producer IPC core
(src/platform/posix/frameserver.c) and of the network bridge front end
(src/a12/net/net.c), together with theorems settling the specification
claims about them.  C strings are modelled as lists of characters, C
byte buffers as lists of naturals, and machine integers as Int or Nat;
external failures (socket calls, mmap, the wire protocol) are supplied
as explicit oracle parameters.  Definitions come first, theorems after.
-/

namespace Arcan

/-- One `work[strlen(work) - 1] = c` assignment from frameserver.c: the
last character of the buffer is overwritten with `c` (for the empty
buffer the model appends, standing in for the out-of-bounds C access
that never happens on the generated keys). -/
def replaceLast (w : List Char) (c : Char) : List Char :=
  w.dropLast ++ [c]

/-- The three semaphore names opened by `shmalloc`
(frameserver.c lines 267-273): the segment key is copied into `work`
and its last character is successively overwritten with the characters
v, a and e, calling `sem_open` after each overwrite. -/
def shmallocSemNames (key : List Char) : List (List Char) :=
  let w1 := replaceLast key 'v'
  let w2 := replaceLast w1 'a'
  let w3 := replaceLast w2 'e'
  [w1, w2, w3]

/-- The three semaphore names unlinked by `arcan_frameserver_dropshared`
(frameserver.c lines 121-129): the segment key is copied into `work`
and its last character is successively overwritten with the characters
v, a and e, calling `sem_unlink` after each overwrite. -/
def dropsharedSemNames (key : List Char) : List (List Char) :=
  let w1 := replaceLast key 'v'
  let w2 := replaceLast w1 'a'
  let w3 := replaceLast w2 'e'
  [w1, w2, w3]

/-- Names acquired by `shmalloc` for a segment key: the shared-memory
object itself (created under the key by `arcan_findshmkey`, line 264)
followed by the three semaphore names. -/
def shmallocAcquiredNames (key : List Char) : List (List Char) :=
  key :: shmallocSemNames key

/-- Names unlinked by `arcan_frameserver_dropshared` for a segment key:
`shm_unlink(src->shm.key)` (line 118) followed by the three
`sem_unlink` calls (lines 121-129). -/
def dropsharedUnlinkedNames (key : List Char) : List (List Char) :=
  key :: dropsharedSemNames key

/-- The loop of `memcmp_nodep` (frameserver.c lines 556-568):
`while (n--){ diffv |= *p1++ ^ *p2++; }`.  Returns the final
accumulator and the number of iterations executed, so that the absence
of short-circuiting is itself a provable fact of the model.  The
fall-through arms return the accumulator when a buffer runs out, which
the C loop (reading out of bounds) never does under the length
preconditions used in the theorems. -/
def memcmp_go : List Nat → List Nat → Nat → Nat → Nat × Nat
  | _, _, 0, diffv => (diffv, 0)
  | a :: p1, b :: p2, Nat.succ n, diffv =>
    let r := memcmp_go p1 p2 n (diffv ||| (a ^^^ b))
    (r.1, r.2 + 1)
  | [], _, Nat.succ _, diffv => (diffv, 0)
  | _ :: _, [], Nat.succ _, diffv => (diffv, 0)

/-- `memcmp_nodep` (frameserver.c lines 556-568): XOR-accumulating
byte compare over `n` bytes; the C function returns `!(diffv != 0)`. -/
def memcmp_nodep (p1 p2 : List Nat) (n : Nat) : Bool :=
  (memcmp_go p1 p2 n 0).1 == 0

/-- Observable state of the socket-verifying feed function: still
accumulating input bytes, producer record destroyed
(`arcan_frameserver_free`), or segment key written to the socket (the
`send_key` label of `socketverify`). -/
inductive VerifyState
  | waiting (buf : List Nat)
  | destroyed
  | sentKey
deriving DecidableEq, Repr

/-- The zero padding performed at a newline (frameserver.c lines
602-603): `memset(tgt->sockinbuf + tgt->sockrofs, 0, LIM - rofs)`
extends the accumulated input with NUL bytes up to the key-length
cap. -/
def padTo (lim : Nat) (buf : List Nat) : List Nat :=
  buf ++ List.replicate (lim - buf.length) 0

/-- One FFUNC_POLL step of `socketverify` with a non-empty expected key
(frameserver.c lines 599-621), consuming the single byte read from the
socket: a newline (byte 10) pads the buffer and runs `memcmp_nodep`
against the expected key, going to `send_key` on a match and destroying
the record otherwise; any other byte is appended, and reaching the
key-length cap `lim` destroys the record.  Destruction and the sent
key are absorbing, matching the feed being freed or replaced. -/
def verifyStep (lim : Nat) (key : List Nat) : VerifyState → Nat → VerifyState
  | VerifyState.waiting buf, ch =>
    if ch = 10 then
      if memcmp_nodep (padTo lim buf) key lim then VerifyState.sentKey
      else VerifyState.destroyed
    else
      let buf2 := buf ++ [ch]
      if lim ≤ buf2.length then VerifyState.destroyed
      else VerifyState.waiting buf2
  | VerifyState.destroyed, _ => VerifyState.destroyed
  | VerifyState.sentKey, _ => VerifyState.sentKey

/-- The byte-at-a-time verification loop: repeated FFUNC_POLL
invocations of `socketverify`, each reading one byte from the socket,
starting from an empty input buffer (`sockrofs == 0`). -/
def socketverify_run (lim : Nat) (key : List Nat) (bytes : List Nat) :
    VerifyState :=
  bytes.foldl (verifyStep lim key) (VerifyState.waiting [])

/-- `socketverify` on FFUNC_POLL (frameserver.c lines 583-622): when
the first byte of `clientkey` is NUL the check is skipped and control
jumps straight to `send_key`; otherwise the byte-at-a-time
verification loop runs over the bytes read from the socket.  `key` is
the `clientkey` buffer of length `lim`. -/
def socketverify (lim : Nat) (key : List Nat) (bytes : List Nat) :
    VerifyState :=
  if key.head? = some 0 then VerifyState.sentKey
  else socketverify_run lim key bytes

/-- The dimension-hint handling of `arcan_frameserver_spawn_subsegment`
(frameserver.c lines 422-423):
`hintw = hintw < 0 || hintw > ARCAN_SHMPAGE_MAXW ? 32 : hintw;` with
the compile-time maximum passed in as `maxv`. -/
def clampHint (maxv hint : Int) : Int :=
  if hint < 0 ∨ maxv < hint then 32 else hint

/-- The events of the parent's outbound queue that the subsegment
spawner touches: the descriptor-transfer announce pushed by
`arcan_frameserver_pushfd` and the new-segment announce carrying the
input flag, the tag and the new segment key. -/
inductive Ev
  | fdtransfer
  | newsegment (input : Bool) (tag : Int) (key : List Char)
deriving DecidableEq, Repr

/-- The producer-record fields that the spawn and supervision claims
depend on. -/
structure Frameserver where
  alive : Bool
  child : Int
  subsegment : Bool
  key : List Char
  w : Int
  h : Int
deriving DecidableEq, Repr

/-- `arcan_frameserver_pushfd` (frameserver.c lines 229-248), restricted
to its effect on the outbound event queue.  Modelled from the spec:
`arcan_pushhandle` (not under src/) performs the kernel descriptor
handoff and `arcan_frameserver_pushevent` (not under src/) appends the
event to the parent's outbound queue; on a successful handoff the
TARGET_COMMAND_FDTRANSFER event is enqueued, otherwise nothing is. -/
def arcan_frameserver_pushfd (queue : List Ev) (pushOk : Bool) : List Ev :=
  if pushOk then queue ++ [Ev.fdtransfer] else queue

/-- Oracle outcomes of the external calls made by
`arcan_frameserver_spawn_subsegment`: shared-segment allocation, video
object registration, socketpair creation and the descriptor handoff,
plus the new segment key drawn by `shmalloc` and the compile-time
dimension maxima. -/
structure SpawnEnv where
  shmallocOk : Bool
  newKey : List Char
  addfobjectOk : Bool
  socketpairOk : Bool
  pushhandleOk : Bool
  maxw : Int
  maxh : Int
deriving DecidableEq, Repr

/-- `arcan_frameserver_spawn_subsegment` (frameserver.c lines 407-538),
restricted to the spawned record and the parent's outbound queue: a
dead parent or a failed allocation or video-object registration
returns NULL with the queue untouched; otherwise the dimension hints
are clamped and written into the new control header, a successful
socketpair is handed off through `arcan_frameserver_pushfd`, the new
record inherits the parent's child pid with the subsegment flag set,
and finally the TARGET_COMMAND_NEWSEGMENT announce carrying the input
flag, the tag and the new segment key is enqueued. -/
def arcan_frameserver_spawn_subsegment (env : SpawnEnv) (parent : Frameserver)
    (parentQueue : List Ev) (input : Bool) (hintw hinth : Int) (tag : Int) :
    Option Frameserver × List Ev :=
  if parent.alive = false then (none, parentQueue)
  else if env.shmallocOk = false then (none, parentQueue)
  else if env.addfobjectOk = false then (none, parentQueue)
  else
    let w := clampHint env.maxw hintw
    let h := clampHint env.maxh hinth
    let q1 := if env.socketpairOk then
        arcan_frameserver_pushfd parentQueue env.pushhandleOk
      else parentQueue
    let newseg : Frameserver :=
      { alive := true, child := parent.child, subsegment := true,
        key := env.newKey, w := w, h := h }
    (some newseg, q1 ++ [Ev.newsegment input tag env.newKey])

/-- Cleanup actions that an exit path of `shmalloc` can perform:
closing the listening socket descriptor, unlinking the three semaphore
names for the key, and unlinking the shared-memory object itself. -/
inductive CAct
  | closedSocket
  | droppedSems
  | unlinkedShm
deriving DecidableEq, Repr

/-- The failure exits of `shmalloc` (frameserver.c lines 257-398), in
source order: empty/oversized connection key (line 281), socket
allocation failure (line 290), missing HOME for a relative prefix
(line 312), socket path over the platform limit (line 321), bind
failure (line 346), ftruncate failure (line 366) and mmap failure
(line 377). -/
inductive ShmFail
  | keyInvalid
  | socketFail
  | homeMissing
  | pathTooLong
  | bindFail
  | truncFail
  | mapFail
deriving DecidableEq, Repr

/-- The `fail:` label of `shmalloc` (frameserver.c lines 381-384).
Modelled from the spec: `arcan_frameserver_dropsemaphores_keyed` (not
under src/) unlinks the three semaphore names derived from the key; the
label performs that call and frees the work buffer, and nothing else —
in particular it does not call `shm_unlink`. -/
def failLabel : List CAct := [CAct.droppedSems]

/-- The exit behaviour of `shmalloc` as a function of the injected
failure point (`none` means every external call succeeds): the
returned flag and the cleanup actions performed on that exit path.
The three failures inside the named-socket branch that occur after the
socket was created close it before jumping to `fail:` (lines 316, 324,
350); the ftruncate failure returns false directly with no cleanup at
all (lines 366-371); every other failure jumps to `fail:`. -/
def shmalloc_run : Option ShmFail → Bool × List CAct
  | none => (true, [])
  | some ShmFail.keyInvalid => (false, failLabel)
  | some ShmFail.socketFail => (false, failLabel)
  | some ShmFail.homeMissing => (false, CAct.closedSocket :: failLabel)
  | some ShmFail.pathTooLong => (false, CAct.closedSocket :: failLabel)
  | some ShmFail.bindFail => (false, CAct.closedSocket :: failLabel)
  | some ShmFail.truncFail => (false, [])
  | some ShmFail.mapFail => (false, failLabel)

/-- The retry loop of `find_connection` (net.c lines 238-271) with the
attempt outcomes supplied by the oracle `attempt` (true means
`anet_cl_setup` produced a state).  The loop runs while the retry
count is non-zero: a successful attempt breaks out; a failed attempt
increments `timesleep` while it is below 10, decrements the positive
retry count and sleeps for the updated `timesleep` seconds.  Returns
the index of the successful attempt, if any, and the list of backoff
sleep durations performed.  The int retry counter is modelled as a
positive count (the negative sentinel never decreases and loops
forever). -/
def find_connection (attempt : Nat → Bool) :
    Nat → Nat → Nat → Option Nat × List Nat
  | 0, _, _ => (none, [])
  | Nat.succ n, timesleep, k =>
    if attempt k then (some k, [])
    else
      let t2 := if timesleep < 10 then timesleep + 1 else timesleep
      let r := find_connection attempt n t2 (k + 1)
      (r.1, t2 :: r.2)

/-- The outbound client form of `main` (net.c lines 646-682): the
target is resolved, `find_connection` runs with the configured retry
count starting from `timesleep = 1`, and if no attempt produced a
state the process exits EXIT_FAILURE (modelled as 1); on success the
bridge result is returned (modelled as 0). -/
def outbound_client (attempt : Nat → Bool) (retry : Nat) : Nat :=
  match (find_connection attempt retry 1 0).1 with
  | none => 1
  | some _ => 0

/-- Lower-casing of an ASCII character, standing in for the
case-insensitive comparison done by `strcasecmp`. -/
def lowerChar (c : Char) : Char :=
  if 'A' ≤ c ∧ c ≤ 'Z' then Char.ofNat (c.toNat + 32) else c

/-- Case-insensitive string equality, the success case of
`strcasecmp(a, b) == 0` (net.c line 63). -/
def strcaseEq (a b : List Char) : Bool :=
  a.map lowerChar == b.map lowerChar

/-- The `trace_groups` table (net.c lines 45-55), exactly the nine
entries of the source: video, audio, system, event, missing, alloc,
crypto, vdetail, btransfer. -/
def trace_groups : List (List Char) :=
  [['v', 'i', 'd', 'e', 'o'],
   ['a', 'u', 'd', 'i', 'o'],
   ['s', 'y', 's', 't', 'e', 'm'],
   ['e', 'v', 'e', 'n', 't'],
   ['m', 'i', 's', 's', 'i', 'n', 'g'],
   ['a', 'l', 'l', 'o', 'c'],
   ['c', 'r', 'y', 'p', 't', 'o'],
   ['v', 'd', 'e', 't', 'a', 'i', 'l'],
   ['b', 't', 'r', 'a', 'n', 's', 'f', 'e', 'r']]

/-- Comma splitting helper for the csv trace selector. -/
def splitCommaAux : List Char → List Char → List (List Char)
  | [], acc => [acc.reverse]
  | c :: rest, acc =>
    if c = ',' then acc.reverse :: splitCommaAux rest []
    else splitCommaAux rest (c :: acc)

/-- `strtok(work, ",")` iteration (net.c lines 60-68): the successive
non-empty comma-separated tokens of the input. -/
def strtokComma (w : List Char) : List (List Char) :=
  (splitCommaAux w []).filter (fun t => !t.isEmpty)

/-- `tracestr_to_bitmap` (net.c lines 57-71): for each comma token,
the first case-insensitive match in `trace_groups` contributes
`1 << i` for its index `i`; unmatched tokens contribute nothing. -/
def tracestr_to_bitmap (w : List Char) : Nat :=
  (strtokComma w).foldl
    (fun res pt =>
      match trace_groups.findIdx? (fun g => strcaseEq g pt) with
      | some i => res ||| (1 <<< i)
      | none => res) 0

/-- `strtoul(s, NULL, 10)` on the leading decimal digits of a
string. -/
def strtoulAux : List Char → Nat → Nat
  | [], acc => acc
  | c :: rest, acc =>
    if '0' ≤ c ∧ c ≤ '9' then strtoulAux rest (acc * 10 + (c.toNat - 48))
    else acc

/-- Decimal parse used for the keystore port argument. -/
def strtoul10 (s : List Char) : Nat :=
  strtoulAux s 0

/-- `apply_keystore_command` (net.c lines 567-612) over the argument
vector after the `keystore` word, with the outcomes of the external
calls as oracles: `dirOk` for `get_keystore_dirfd`, `openOk` for
`a12helper_keystore_open` and `registerOk` for
`a12helper_keystore_register`.  Returns the process exit code paired
with whether a diagnostic (usage banner) was printed.  `show_usage`
returns false, which the int-returning command propagates as 0; the
result of the registration call is tested but its failure branch is
empty (line 606-607), so the command releases the keystore and returns
EXIT_SUCCESS regardless of `registerOk`. -/
def apply_keystore_command (args : List (List Char))
    (dirOk openOk registerOk : Bool) : Nat × Bool :=
  if args.length = 0 then (0, true)
  else if dirOk = false then (0, true)
  else if openOk = false then (0, true)
  else if args.length < 2 then (0, true)
  else
    match args.drop 2 with
    | [] => (0, false)
    | p :: _ =>
      let port := strtoul10 p
      if port = 0 ∨ 65535 < port then (0, true) else (0, false)

end Arcan

namespace Arcan

/-- Helper: a bitwise OR of naturals is zero exactly when both operands
are zero. -/
theorem lor_eq_zero_iff (x y : Nat) : x ||| y = 0 ↔ x = 0 ∧ y = 0 := by
  constructor
  · intro h
    have hb : ∀ i, x.testBit i = false ∧ y.testBit i = false := by
      intro i
      have h2 := congrArg (fun n => Nat.testBit n i) h
      simpa using h2
    constructor
    · exact Nat.eq_of_testBit_eq fun i => by simp [(hb i).1]
    · exact Nat.eq_of_testBit_eq fun i => by simp [(hb i).2]
  · rintro ⟨rfl, rfl⟩
    simp

/-- Helper: the accumulator returned by the `memcmp_nodep` loop is zero
exactly when the incoming accumulator is zero and the first `n` bytes
of the two buffers agree. -/
theorem memcmp_go_fst (n : Nat) :
    ∀ (p1 p2 : List Nat) (d : Nat), n ≤ p1.length → n ≤ p2.length →
      ((memcmp_go p1 p2 n d).1 = 0 ↔ d = 0 ∧ p1.take n = p2.take n) := by
  induction n with
  | zero =>
    intro p1 p2 d _ _
    simp [memcmp_go]
  | succ n ih =>
    intro p1 p2 d h1 h2
    match p1, p2 with
    | [], _ => simp at h1
    | _ :: _, [] => simp at h2
    | a :: p1, b :: p2 =>
      have h1' : n ≤ p1.length := by simpa using Nat.le_of_succ_le_succ h1
      have h2' : n ≤ p2.length := by simpa using Nat.le_of_succ_le_succ h2
      have := ih p1 p2 (d ||| (a ^^^ b)) h1' h2'
      simp only [memcmp_go, this, lor_eq_zero_iff, Nat.xor_eq_zero,
        List.take_succ_cons, List.cons.injEq]
      tauto

/-- Helper: the `memcmp_nodep` loop always executes exactly `n`
iterations when both buffers hold at least `n` bytes, whatever the
byte values are. -/
theorem memcmp_go_snd (n : Nat) :
    ∀ (p1 p2 : List Nat) (d : Nat), n ≤ p1.length → n ≤ p2.length →
      (memcmp_go p1 p2 n d).2 = n := by
  induction n with
  | zero =>
    intro p1 p2 d _ _
    simp [memcmp_go]
  | succ n ih =>
    intro p1 p2 d h1 h2
    match p1, p2 with
    | [], _ => simp at h1
    | _ :: _, [] => simp at h2
    | a :: p1, b :: p2 =>
      have h1' : n ≤ p1.length := by simpa using Nat.le_of_succ_le_succ h1
      have h2' : n ≤ p2.length := by simpa using Nat.le_of_succ_le_succ h2
      simp [memcmp_go, ih p1 p2 (d ||| (a ^^^ b)) h1' h2']

/-- Claim C2: over buffers holding at least `n` bytes, the verifier's
key compare `memcmp_nodep` returns true exactly when the first `n`
bytes agree, and its loop runs exactly `n` iterations regardless of the
byte values (in particular regardless of the position of the first
differing byte), so it never short-circuits on a mismatch. -/
theorem C2_memcmp_nodep_correct (p1 p2 : List Nat) (n : Nat)
    (h1 : n ≤ p1.length) (h2 : n ≤ p2.length) :
    (memcmp_nodep p1 p2 n = true ↔ p1.take n = p2.take n) ∧
    (memcmp_go p1 p2 n 0).2 = n := by
  constructor
  · have := memcmp_go_fst n p1 p2 0 h1 h2
    simp only [memcmp_nodep, beq_iff_eq, this]
    tauto
  · exact memcmp_go_snd n p1 p2 0 h1 h2

/-- Claim C2, witness: the theorem applied to the mismatching
two-byte buffers 1,2 and 1,3. -/
theorem C2_memcmp_nodep_witness :
    (memcmp_nodep [1, 2] [1, 3] 2 = true ↔
      ([1, 2] : List Nat).take 2 = ([1, 3] : List Nat).take 2) ∧
    (memcmp_go [1, 2] [1, 3] 2 0).2 = 2 :=
  C2_memcmp_nodep_correct [1, 2] [1, 3] 2 (by decide) (by decide)

/-- Claim C1, counterexample: for the two-character key "ab" the
allocator opens semaphores named "av", "aa", "ae" (last character
overwritten), not "abv", "aba", "abe" as the claim (key immediately
followed by the suffix character) demands. -/
theorem C1_semaphore_suffix_cex :
    shmallocSemNames ['a', 'b'] ≠
      [['a', 'b', 'v'], ['a', 'b', 'a'], ['a', 'b', 'e']] := by
  decide

/-- Claim C1, amended: both at allocation and at teardown the three
semaphore names are the segment key with its final character replaced
by v, a and e respectively (the code overwrites the last character of
the key rather than appending a suffix character). -/
theorem C1_semaphore_names_replace_last (key : List Char) :
    shmallocSemNames key =
      [key.dropLast ++ ['v'], key.dropLast ++ ['a'], key.dropLast ++ ['e']] ∧
    dropsharedSemNames key =
      [key.dropLast ++ ['v'], key.dropLast ++ ['a'], key.dropLast ++ ['e']] := by
  constructor <;>
    simp [shmallocSemNames, dropsharedSemNames, replaceLast, List.dropLast_concat]

/-- Claim C10: teardown unlinks exactly the names that allocation
acquired, in the same order: the shared-memory object under the key and
the three semaphore names derived by the identical
last-character-overwrite transformation of the key. -/
theorem C10_drop_matches_alloc (key : List Char) :
    dropsharedUnlinkedNames key = shmallocAcquiredNames key := rfl

/-- Helper: a destroyed producer record stays destroyed under further
polls. -/
theorem verify_absorb_destroyed (lim : Nat) (key : List Nat) :
    ∀ bytes : List Nat,
      bytes.foldl (verifyStep lim key) VerifyState.destroyed =
        VerifyState.destroyed := by
  intro bytes
  induction bytes with
  | nil => rfl
  | cons b bs ih => simpa [verifyStep] using ih

/-- Helper: once the segment key has been sent the feed stays in that
state. -/
theorem verify_absorb_sentKey (lim : Nat) (key : List Nat) :
    ∀ bytes : List Nat,
      bytes.foldl (verifyStep lim key) VerifyState.sentKey =
        VerifyState.sentKey := by
  intro bytes
  induction bytes with
  | nil => rfl
  | cons b bs ih => simpa [verifyStep] using ih

/-- Helper: feeding non-newline bytes that keep the buffer strictly
below the cap just accumulates them. -/
theorem verify_run_accumulate (lim : Nat) (key : List Nat) :
    ∀ (p : List Nat) (buf : List Nat), (∀ b ∈ p, b ≠ 10) →
      buf.length + p.length < lim →
      p.foldl (verifyStep lim key) (VerifyState.waiting buf) =
        VerifyState.waiting (buf ++ p) := by
  intro p
  induction p with
  | nil => intro buf _ _; simp
  | cons b bs ih =>
    intro buf hnl hlen
    have hb : b ≠ 10 := hnl b (by simp)
    have step : verifyStep lim key (VerifyState.waiting buf) b =
        VerifyState.waiting (buf ++ [b]) := by
      simp only [List.length_cons] at hlen
      simp [verifyStep, hb]
      omega
    have tail := ih (buf ++ [b]) (fun x hx => hnl x (by simp [hx]))
      (by simp only [List.length_append, List.length_cons,
            List.length_nil] at hlen ⊢; omega)
    simpa [step, List.append_assoc] using tail

/-- Helper: feeding enough non-newline bytes to reach the cap destroys
the producer record. -/
theorem verify_run_overflow (lim : Nat) (key : List Nat) :
    ∀ (p : List Nat) (buf : List Nat), (∀ b ∈ p, b ≠ 10) →
      lim ≤ buf.length + p.length → buf.length < lim →
      p.foldl (verifyStep lim key) (VerifyState.waiting buf) =
        VerifyState.destroyed := by
  intro p
  induction p with
  | nil =>
    intro buf _ hge hlt
    simp only [List.length_nil, Nat.add_zero] at hge
    omega
  | cons b bs ih =>
    intro buf hnl hge hlt
    have hb : b ≠ 10 := hnl b (by simp)
    by_cases hfull : lim ≤ (buf ++ [b]).length
    · have step : verifyStep lim key (VerifyState.waiting buf) b =
          VerifyState.destroyed := by
        simp only [List.length_append, List.length_cons,
          List.length_nil] at hfull
        simp [verifyStep, hb]
        omega
      simpa [step] using verify_absorb_destroyed lim key bs
    · have step : verifyStep lim key (VerifyState.waiting buf) b =
          VerifyState.waiting (buf ++ [b]) := by
        simp only [List.length_append, List.length_cons,
          List.length_nil] at hfull
        simp [verifyStep, hb]
        omega
      have tail := ih (buf ++ [b]) (fun x hx => hnl x (by simp [hx]))
        (by simp only [List.length_append, List.length_cons,
              List.length_nil] at hge ⊢; omega)
        (by simp only [List.length_append, List.length_cons,
              List.length_nil] at hfull ⊢; omega)
      simpa [step] using tail

/-- Claim C3: with an empty expected key (first byte NUL) the segment
key is sent immediately; with a non-empty expected key, if the bytes
read begin with a run of non-newline bytes followed by a newline and
the NUL-padded run differs from the expected key, or if the key-length
cap is reached without a newline, then the producer record is
destroyed and no point of the verification loop ever reaches the
key-sending state. -/
theorem C3_socketverify_destroy_paths (lim : Nat) (key bytes : List Nat)
    (hlim : 0 < lim) (hkl : key.length = lim) :
    (key.head? = some 0 → socketverify lim key bytes = VerifyState.sentKey) ∧
    (key.head? ≠ some 0 →
      ((∃ p rest, bytes = p ++ 10 :: rest ∧ (∀ b ∈ p, b ≠ 10) ∧
          p.length < lim ∧ padTo lim p ≠ key) →
        socketverify lim key bytes = VerifyState.destroyed ∧
        ∀ q r, bytes = q ++ r →
          socketverify_run lim key q ≠ VerifyState.sentKey) ∧
      (((∀ b ∈ bytes.take lim, b ≠ 10) ∧ lim ≤ bytes.length) →
        socketverify lim key bytes = VerifyState.destroyed ∧
        ∀ q r, bytes = q ++ r →
          socketverify_run lim key q ≠ VerifyState.sentKey)) := by
  have habs : ∀ q r : List Nat, bytes = q ++ r →
      socketverify_run lim key bytes = VerifyState.destroyed →
      socketverify_run lim key q ≠ VerifyState.sentKey := by
    intro q r hqr hdes hq
    rw [hqr] at hdes
    rw [socketverify_run, List.foldl_append] at hdes
    rw [socketverify_run] at hq
    rw [hq, verify_absorb_sentKey] at hdes
    exact absurd hdes (by intro h; cases h)
  constructor
  · intro hempty
    simp [socketverify, hempty]
  · intro hne
    have hsv : socketverify lim key bytes = socketverify_run lim key bytes := by
      simp [socketverify, hne]
    constructor
    · rintro ⟨p, rest, hbytes, hnl, hplen, hpad⟩
      have hrun : socketverify_run lim key bytes = VerifyState.destroyed := by
        rw [hbytes, socketverify_run, List.foldl_append]
        have hacc := verify_run_accumulate lim key p [] hnl
          (by simpa using hplen)
        simp only [List.nil_append] at hacc
        rw [show ((10 : Nat) :: rest) = [10] ++ rest by rfl, List.foldl_append,
          hacc]
        have hpadlen : (padTo lim p).length = lim := by
          simp only [padTo, List.length_append, List.length_replicate]
          omega
        have hcmp : memcmp_nodep (padTo lim p) key lim = false := by
          by_contra hcontra
          have htrue : memcmp_nodep (padTo lim p) key lim = true := by
            cases hmb : memcmp_nodep (padTo lim p) key lim with
            | false => exact absurd hmb hcontra
            | true => rfl
          have hiff := (C2_memcmp_nodep_correct (padTo lim p) key lim
            (by omega) (by omega)).1
          have heq : (padTo lim p).take lim = key.take lim := hiff.mp htrue
          rw [List.take_of_length_le (by omega),
            List.take_of_length_le (by omega)] at heq
          exact hpad heq
        simpa [verifyStep, hcmp] using verify_absorb_destroyed lim key rest
      exact ⟨hsv.trans hrun, fun q r hqr => habs q r hqr hrun⟩
    · rintro ⟨hnl, hlen⟩
      have hrun : socketverify_run lim key bytes = VerifyState.destroyed := by
        have hsplit : bytes = bytes.take lim ++ bytes.drop lim :=
          (List.take_append_drop lim bytes).symm
        rw [socketverify_run, hsplit, List.foldl_append]
        have hover := verify_run_overflow lim key (bytes.take lim) [] hnl
          (by simp [List.length_take]; omega) (by simpa using hlim)
        simp only [List.nil_append] at hover
        rw [hover, verify_absorb_destroyed]
      exact ⟨hsv.trans hrun, fun q r hqr => habs q r hqr hrun⟩

/-- Claim C3, witness: with cap 2 and expected key 65,66, the byte
sequence 66 then newline pads to 66,0, fails the compare and destroys
the producer record. -/
theorem C3_socketverify_witness :
    socketverify 2 [65, 66] [66, 10] = VerifyState.destroyed := by
  have h := C3_socketverify_destroy_paths 2 [65, 66] [66, 10]
    (by decide) (by decide)
  exact ((h.2 (by decide)).1
    ⟨[66], [], by decide, by decide, by decide, by decide⟩).1

/-- Claim C4: on an alive parent, when the allocation, video object,
socketpair and descriptor handoff all succeed, one spawn call appends
to the parent's outbound queue exactly the descriptor-transfer
announce followed by a single new-segment announce carrying the input
flag, the tag and the new segment key, and the spawned record inherits
the parent's child pid. -/
theorem C4_subsegment_announce_order (env : SpawnEnv) (parent : Frameserver)
    (parentQueue : List Ev) (input : Bool) (hintw hinth : Int) (tag : Int)
    (halive : parent.alive = true) (hshm : env.shmallocOk = true)
    (hvid : env.addfobjectOk = true) (hsp : env.socketpairOk = true)
    (hpush : env.pushhandleOk = true) :
    (arcan_frameserver_spawn_subsegment env parent parentQueue
        input hintw hinth tag).2 =
      parentQueue ++ [Ev.fdtransfer, Ev.newsegment input tag env.newKey] ∧
    ∃ ns, (arcan_frameserver_spawn_subsegment env parent parentQueue
        input hintw hinth tag).1 = some ns ∧ ns.child = parent.child := by
  constructor
  · simp [arcan_frameserver_spawn_subsegment, arcan_frameserver_pushfd,
      halive, hshm, hvid, hsp, hpush]
  · exact ⟨⟨true, parent.child, true, env.newKey,
      clampHint env.maxw hintw, clampHint env.maxh hinth⟩,
      by simp [arcan_frameserver_spawn_subsegment, halive, hshm, hvid], rfl⟩

/-- Claim C4, witness: the theorem applied to a concrete alive parent
with child pid 7 and an all-success environment. -/
theorem C4_subsegment_announce_witness :
    (arcan_frameserver_spawn_subsegment
        ⟨true, ['k'], true, true, true, 4096, 4096⟩
        ⟨true, 7, false, ['p'], 32, 32⟩ [] false 64 64 3).2 =
      [] ++ [Ev.fdtransfer, Ev.newsegment false 3 ['k']] ∧
    ∃ ns, (arcan_frameserver_spawn_subsegment
        ⟨true, ['k'], true, true, true, 4096, 4096⟩
        ⟨true, 7, false, ['p'], 32, 32⟩ [] false 64 64 3).1 = some ns ∧
      ns.child = (⟨true, 7, false, ['p'], 32, 32⟩ : Frameserver).child :=
  C4_subsegment_announce_order ⟨true, ['k'], true, true, true, 4096, 4096⟩
    ⟨true, 7, false, ['p'], 32, 32⟩ [] false 64 64 3
    rfl rfl rfl rfl rfl

/-- Claim C5, counterexample: with maximum 4096, the hint 0 is written
into the new control header unchanged, so the resulting width is 0,
which neither lies in the claimed inclusive range starting at 1 nor
was replaced by the default 32. -/
theorem C5_clamp_zero_cex :
    clampHint 4096 0 ≠ 32 ∧ ¬ (1 ≤ clampHint 4096 0) := by
  decide

/-- Claim C5, amended: for any maximum of at least 32, the width and
height written into the new control header lie in the inclusive range
from 0 to the maximum: a hint between 0 and the maximum (including 0)
is used unchanged, and a negative or over-maximum hint is replaced by
the default 32. -/
theorem C5_clamp_range (maxv hint : Int) (h32 : 32 ≤ maxv) :
    (0 ≤ clampHint maxv hint ∧ clampHint maxv hint ≤ maxv) ∧
    (0 ≤ hint → hint ≤ maxv → clampHint maxv hint = hint) ∧
    (hint < 0 ∨ maxv < hint → clampHint maxv hint = 32) := by
  by_cases h : hint < 0 ∨ maxv < hint
  · have he : clampHint maxv hint = 32 := by
      unfold clampHint
      exact if_pos h
    rw [he]
    exact ⟨⟨by omega, h32⟩,
      fun h0 hm => by rcases h with h1 | h1 <;> omega,
      fun _ => rfl⟩
  · have he : clampHint maxv hint = hint := by
      unfold clampHint
      exact if_neg h
    rw [he]
    push_neg at h
    exact ⟨⟨h.1, h.2⟩, fun _ _ => rfl,
      fun hc => by rcases hc with h1 | h1 <;> omega⟩

/-- Claim C5, witness: the amended theorem applied at maximum 4096 and
hint 5. -/
theorem C5_clamp_range_witness :
    (0 ≤ clampHint 4096 5 ∧ clampHint 4096 5 ≤ 4096) ∧
    (0 ≤ (5 : Int) → (5 : Int) ≤ 4096 → clampHint 4096 5 = 5) ∧
    ((5 : Int) < 0 ∨ (4096 : Int) < 5 → clampHint 4096 5 = 32) :=
  C5_clamp_range 4096 5 (by decide)

/-- Claim C6, counterexample: the ftruncate failure exit of `shmalloc`
performs no cleanup at all — neither the semaphores nor the
shared-memory object are unlinked there. -/
theorem C6_truncate_no_cleanup_cex :
    ¬ (CAct.droppedSems ∈ (shmalloc_run (some ShmFail.truncFail)).2 ∧
       CAct.unlinkedShm ∈ (shmalloc_run (some ShmFail.truncFail)).2) := by
  decide

/-- Claim C6, amended: every failure exit of `shmalloc` returns false;
no failure exit ever unlinks the shared-memory object; every failure
exit except the ftruncate one unlinks the three semaphores through the
`fail:` label, while the ftruncate exit performs no cleanup action at
all; and the listening socket descriptor is closed on exactly the
three named-socket failure exits that occur after the socket was
created (missing HOME, path too long, bind failure). -/
theorem C6_failure_cleanup_actual (fp : ShmFail) :
    (shmalloc_run (some fp)).1 = false ∧
    CAct.unlinkedShm ∉ (shmalloc_run (some fp)).2 ∧
    (fp ≠ ShmFail.truncFail →
      CAct.droppedSems ∈ (shmalloc_run (some fp)).2) ∧
    (fp = ShmFail.truncFail → (shmalloc_run (some fp)).2 = []) ∧
    ((fp = ShmFail.homeMissing ∨ fp = ShmFail.pathTooLong ∨
        fp = ShmFail.bindFail) ↔
      CAct.closedSocket ∈ (shmalloc_run (some fp)).2) := by
  cases fp <;> decide

/-- Claim C6, witness: the amended theorem applied to the bind failure
exit, which closes the listening socket and drops the semaphores but
does not unlink the shared-memory object. -/
theorem C6_failure_cleanup_witness :
    (shmalloc_run (some ShmFail.bindFail)).1 = false ∧
    CAct.unlinkedShm ∉ (shmalloc_run (some ShmFail.bindFail)).2 ∧
    CAct.droppedSems ∈ (shmalloc_run (some ShmFail.bindFail)).2 ∧
    CAct.closedSocket ∈ (shmalloc_run (some ShmFail.bindFail)).2 :=
  ⟨(C6_failure_cleanup_actual ShmFail.bindFail).1,
   (C6_failure_cleanup_actual ShmFail.bindFail).2.1,
   (C6_failure_cleanup_actual ShmFail.bindFail).2.2.1 (by decide),
   (C6_failure_cleanup_actual ShmFail.bindFail).2.2.2.2.mp (by decide)⟩

/-- Claim C7, counterexample: with retry count 2 against a target where
every attempt fails, the two backoff sleeps are 2 and 3 seconds — the
counter is incremented before the sleep — not the claimed 1 and 2. -/
theorem C7_retry_sleep_cex :
    (find_connection (fun _ => false) 2 1 0).2 ≠ [1, 2] := by
  decide

/-- Helper: closed form of the all-fail retry loop starting from an
arbitrary backoff value of at most 10. -/
theorem find_connection_allfail (n : Nat) :
    ∀ t k : Nat, t ≤ 10 →
      find_connection (fun _ => false) n t k =
        (none, (List.range n).map (fun i => min (t + i + 1) 10)) := by
  induction n with
  | zero => intro t k _; simp [find_connection]
  | succ n ih =>
    intro t k ht
    have ht2 : (if t < 10 then t + 1 else t) ≤ 10 := by
      split <;> omega
    rw [show find_connection (fun _ => false) (Nat.succ n) t k =
        ((find_connection (fun _ => false) n
            (if t < 10 then t + 1 else t) (k + 1)).1,
          (if t < 10 then t + 1 else t) ::
            (find_connection (fun _ => false) n
              (if t < 10 then t + 1 else t) (k + 1)).2) from rfl]
    rw [ih (if t < 10 then t + 1 else t) (k + 1) ht2]
    rw [List.range_succ_eq_map, List.map_cons, List.map_map]
    refine congrArg (fun l => ((none : Option Nat), l)) ?_
    refine congrArg₂ (· :: ·) ?_ ?_
    · by_cases hlt : t < 10
      · rw [if_pos hlt]
        omega
      · rw [if_neg hlt]
        omega
    · refine List.map_congr_left ?_
      intro i _
      show min ((if t < 10 then t + 1 else t) + i + 1) 10 =
        min (t + (i + 1) + 1) 10
      by_cases hlt : t < 10
      · rw [if_pos hlt]
        omega
      · rw [if_neg hlt]
        omega

/-- Claim C7, amended: with a positive retry count n against a target
where every attempt fails, the loop makes exactly n attempts, each
followed by one backoff sleep; the sleeps are min(i + 2, 10) seconds
for i = 0, 1, ... (so 2, 3, 4, ... capped at 10 — incremented before
sleeping, never starting at 1), and the outbound client form then
exits non-zero. -/
theorem C7_retry_backoff_actual (n : Nat) :
    find_connection (fun _ => false) n 1 0 =
      (none, (List.range n).map (fun i => min (i + 2) 10)) ∧
    (find_connection (fun _ => false) n 1 0).2.length = n ∧
    outbound_client (fun _ => false) n = 1 := by
  have h := find_connection_allfail n 1 0 (by omega)
  have hform : (fun i => min (1 + i + 1) 10) = (fun i => min (i + 2) 10) := by
    funext i
    omega
  rw [hform] at h
  refine ⟨h, ?_, ?_⟩
  · rw [h]
    simp
  · rw [outbound_client, h]

/-- Claim C8: the csv trace selector resolves against the nine-entry
source table, so "missing" yields 16 (bit 4) rather than the claimed
64 (bit 6), "btransfer" yields 256 (bit 8) rather than the claimed
1024 (bit 10), and the names "transfer" and "debug" listed in the
usage banner are not recognised at all. -/
theorem C8_trace_bitmap_eval :
    tracestr_to_bitmap ['m', 'i', 's', 's', 'i', 'n', 'g'] = 16 ∧
    tracestr_to_bitmap ['m', 'i', 's', 's', 'i', 'n', 'g'] ≠ 64 ∧
    tracestr_to_bitmap ['b', 't', 'r', 'a', 'n', 's', 'f', 'e', 'r'] = 256 ∧
    tracestr_to_bitmap ['b', 't', 'r', 'a', 'n', 's', 'f', 'e', 'r'] ≠ 1024 ∧
    tracestr_to_bitmap ['t', 'r', 'a', 'n', 's', 'f', 'e', 'r'] = 0 ∧
    tracestr_to_bitmap ['d', 'e', 'b', 'u', 'g'] = 0 := by
  decide

/-- Claim C9: when the keystore registration call fails on an otherwise
valid invocation (tag and host present, keystore opened), the command
still returns exit code 0 (EXIT_SUCCESS) and prints no diagnostic —
the failure branch of the registration test is empty. -/
theorem C9_keystore_register_ignored :
    apply_keystore_command [['t'], ['h']] true true false = (0, false) := by
  decide

end Arcan
